import Mathlib

/-!
Verification of the orchestration / statistical-convergence layer of the
RPMDrate program (`src/rpmd/main.py`) against its natural-language
specification.  The Python code is shallowly embedded: real arithmetic is
modelled over `ℚ` (the claims under study are exact structural/control-flow
properties, not floating-point rounding properties), Python exceptions are
modelled by `Option`/`Except`/error flags, and the external Fortran
propagator, `numpy.sqrt`, `numpy.exp` and the text-to-number conversions are
opaque collaborators passed in as function parameters.
-/

namespace RPMDrate

/-- Per-window umbrella-sampling state, embedding the Python class `Window`
(`main.py` lines 105-115) together with the step counts that
`computePotentialOfMeanForce` derives from the stored times
(`equilibrationSteps = int(round(equilibrationTime / dt))` and likewise for
`evolutionSteps`); the model stores the derived step counts directly.
`count` is a Python `int`, so it is modelled as `ℤ`. -/
structure UWindow where
  xi : ℚ
  kforce : ℚ
  trajectories : ℕ
  evolutionSteps : ℕ
  av : ℚ
  av2 : ℚ
  count : ℤ
  deriving DecidableEq, Repr

/-- Fresh window as built by `Window.__init__` (`main.py` lines 105-115):
the sampling accumulators start at `count = 0`, `av = 0.0`, `av2 = 0.0`. -/
def freshWindow (xi kforce : ℚ) (trajectories evolutionSteps : ℕ) : UWindow :=
  { xi := xi, kforce := kforce, trajectories := trajectories,
    evolutionSteps := evolutionSteps, av := 0, av2 := 0, count := 0 }

/-- Result of one umbrella sampling trajectory: `runUmbrellaTrajectory`
(`main.py` lines 56-66) returns `(dav, dav2, evolutionSteps)`. -/
structure UBatch where
  dav : ℚ
  dav2 : ℚ
  dcount : ℕ
  deriving DecidableEq, Repr

/-- Accumulation of one trajectory batch into a window (`main.py` lines
582-584): `window.av += dav`, `window.av2 += dav2`, `window.count += dcount`. -/
def applyBatch (w : UWindow) (b : UBatch) : UWindow :=
  { w with av := w.av + b.dav, av2 := w.av2 + b.dav2, count := w.count + b.dcount }

/-- Running a sequence of sampling batches in order. -/
def runBatches (w : UWindow) (bs : List UBatch) : UWindow :=
  bs.foldl applyBatch w

/-- Checkpoint row contents: `main.py` line 596 writes the running totals
`window.av`, `window.av2`, `window.count` (not the per-batch deltas). -/
def windowTotals (w : UWindow) : ℚ × ℚ × ℤ :=
  (w.av, w.av2, w.count)

/-- Resumption from a loaded checkpoint row (`main.py` lines 504-506):
`window.av += av_list[-1]`, `window.av2 += av2_list[-1]`,
`window.count += count_list[-1]` — the loaded running totals are added onto
the window state. -/
def loadTotals (w : UWindow) (t : ℚ × ℚ × ℤ) : UWindow :=
  { w with av := w.av + t.1, av2 := w.av2 + t.2.1, count := w.count + t.2.2 }

/-- C8: for every window, loading the most recent checkpointed row of its
umbrella sampling file (which stores running totals) and then running the
remaining batches yields exactly the same final `av`, `av2`, `count` as
running all batches in one continuous session: resumption adds the loaded
running sums and count onto the fresh zero state and every later batch is
accumulated additively on top. -/
theorem c8_resume_equals_continuous (xi kforce : ℚ) (trajectories evolutionSteps : ℕ)
    (bs1 bs2 : List UBatch) :
    runBatches
      (loadTotals (freshWindow xi kforce trajectories evolutionSteps)
        (windowTotals (runBatches (freshWindow xi kforce trajectories evolutionSteps) bs1)))
      bs2
      = runBatches (freshWindow xi kforce trajectories evolutionSteps) (bs1 ++ bs2) := by
  have hparams : ∀ w bs, (runBatches w bs).xi = w.xi ∧ (runBatches w bs).kforce = w.kforce ∧
      (runBatches w bs).trajectories = w.trajectories ∧
      (runBatches w bs).evolutionSteps = w.evolutionSteps := by
    intro w bs
    induction bs generalizing w with
    | nil => exact ⟨rfl, rfl, rfl, rfl⟩
    | cons b t ih => simpa [runBatches, applyBatch] using ih (applyBatch w b)
  have hload : loadTotals (freshWindow xi kforce trajectories evolutionSteps)
      (windowTotals (runBatches (freshWindow xi kforce trajectories evolutionSteps) bs1))
      = runBatches (freshWindow xi kforce trajectories evolutionSteps) bs1 := by
    obtain ⟨h1, h2, h3, h4⟩ := hparams (freshWindow xi kforce trajectories evolutionSteps) bs1
    cases hw : runBatches (freshWindow xi kforce trajectories evolutionSteps) bs1 with
    | mk a b c d e f g =>
      rw [hw] at h1 h2 h3 h4
      simp only [freshWindow] at h1 h2 h3 h4
      subst h1; subst h2; subst h3; subst h4
      simp [loadTotals, windowTotals, freshWindow]
  rw [hload]
  simp [runBatches, List.foldl_append]

/-- Operations that touch a window's sampling accumulators: a trajectory
batch (`main.py` lines 582-584) or a checkpoint load (lines 504-506). -/
inductive WindowOp where
  | batch : UBatch → WindowOp
  | loadCk : ℚ × ℚ × ℤ → WindowOp
  deriving DecidableEq, Repr

/-- Count increment contributed by a window operation: a batch adds its
`dcount = evolutionSteps` and a checkpoint load adds the loaded `count`. -/
def opCountIncr : WindowOp → ℤ
  | WindowOp.batch b => (b.dcount : ℤ)
  | WindowOp.loadCk t => t.2.2

/-- Application of one window operation. -/
def applyOp (w : UWindow) : WindowOp → UWindow
  | WindowOp.batch b => applyBatch w b
  | WindowOp.loadCk t => loadTotals w t

/-- Application of a sequence of window operations. -/
def applyOps (w : UWindow) (ops : List WindowOp) : UWindow :=
  ops.foldl applyOp w

/-- C9: the `count` field is monotonically non-decreasing across any sequence
of sampling batches and checkpoint loads.  Every operation adds its increment
(the batch's `evolutionSteps`, necessarily non-negative, or the loaded
checkpoint count) onto `count` rather than resetting it, so whenever all
loaded checkpoint counts are non-negative the final `count` is at least the
initial one. -/
theorem c9_count_monotone (w : UWindow) (ops : List WindowOp)
    (h : ∀ op ∈ ops, 0 ≤ opCountIncr op) :
    (∀ op, (applyOp w op).count = w.count + opCountIncr op) ∧
      w.count ≤ (applyOps w ops).count := by
  constructor
  · intro op
    cases op with
    | batch b => simp [applyOp, applyBatch, opCountIncr]
    | loadCk t => simp [applyOp, loadTotals, opCountIncr]
  · induction ops generalizing w with
    | nil => simp [applyOps]
    | cons op t ih =>
      have hop : 0 ≤ opCountIncr op := h op (List.mem_cons_self op t)
      have hstep : w.count ≤ (applyOp w op).count := by
        cases op with
        | batch b => simp [applyOp, applyBatch, opCountIncr]
        | loadCk p => simpa [applyOp, loadTotals, opCountIncr] using hop
      have htail : (applyOp w op).count ≤ (applyOps (applyOp w op) t).count :=
        ih (applyOp w op) (fun o ho => h o (List.mem_cons_of_mem op ho))
      calc w.count ≤ (applyOp w op).count := hstep
        _ ≤ (applyOps (applyOp w op) t).count := htail
        _ = (applyOps w (op :: t)).count := rfl

/-- C9 witness: the monotonicity theorem applied at a concrete operation
sequence (one batch, one non-negative checkpoint load). -/
theorem c9_count_monotone_witness :
    (∀ op ∈ [WindowOp.batch ⟨1, 2, 5⟩, WindowOp.loadCk (3, 4, 7)], 0 ≤ opCountIncr op) ∧
      (freshWindow 1 1 1 1).count ≤
        (applyOps (freshWindow 1 1 1 1)
          [WindowOp.batch ⟨1, 2, 5⟩, WindowOp.loadCk (3, 4, 7)]).count :=
  ⟨by decide,
   (c9_count_monotone (freshWindow 1 1 1 1)
      [WindowOp.batch ⟨1, 2, 5⟩, WindowOp.loadCk (3, 4, 7)] (by decide)).2⟩

/-- Selection of the starting configuration for an umbrella sampling
trajectory (`main.py` lines 552-554):

`for xi, q_initial in self.umbrellaConfigurations: if xi >= window.xi: break`

Python's `for` loop leaves the last bound pair in scope when no entry
triggers the `break`, so the selected entry is the first one whose `xi` is at
least the window center, or else the final entry of the list.  An empty
configurations list would raise a `NameError` in Python, modelled by
`none`. -/
def pickConfig {α : Type} : List (ℚ × α) → ℚ → Option (ℚ × α)
  | [], _ => none
  | [c], _ => some c
  | c :: c2 :: rest, xiW => if xiW ≤ c.1 then some c else pickConfig (c2 :: rest) xiW

/-- Replication of the chosen geometry across all beads (`main.py` lines
555-556: `for k in range(self.Nbeads): q[:,:,k] = q_initial`) applied to the
configuration selected for the window. -/
def initialBeadPositions {α : Type} (cfgs : List (ℚ × α)) (xiW : ℚ) (nbeads : ℕ) :
    Option (List α) :=
  (pickConfig cfgs xiW).map (fun c => List.replicate nbeads c.2)

/-- C10: for every umbrella sampling trajectory dispatched by
`computePotentialOfMeanForce`, the initial bead positions are the first
stored configuration whose `xi` is at least the window's center, replicated
identically across all beads; when no stored configuration has `xi` at or
beyond the center, the last configuration of the list is used. -/
theorem c10_initial_configuration {α : Type} (cfgs : List (ℚ × α)) (xiW : ℚ)
    (nbeads : ℕ) (h : cfgs ≠ []) :
    initialBeadPositions cfgs xiW nbeads =
      some (List.replicate nbeads
        (((cfgs.find? (fun c => decide (xiW ≤ c.1))).getD (cfgs.getLast h)).2)) := by
  have hpick : pickConfig cfgs xiW =
      some ((cfgs.find? (fun c => decide (xiW ≤ c.1))).getD (cfgs.getLast h)) := by
    induction cfgs with
    | nil => exact absurd rfl h
    | cons c t ih =>
      cases t with
      | nil =>
        by_cases hc : xiW ≤ c.1
        · simp [pickConfig, List.find?, hc]
        · simp [pickConfig, List.find?, hc]
      | cons c2 t2 =>
        by_cases hc : xiW ≤ c.1
        · simp [pickConfig, List.find?, hc]
        · have hne : c2 :: t2 ≠ ([] : List (ℚ × α)) := by simp
          rw [List.getLast_cons hne]
          simpa [pickConfig, List.find?_cons, hc] using ih hne
  simp [initialBeadPositions, hpick]

/-- Concrete umbrella configuration list used to witness C10. -/
def c10cfgs : List (ℚ × ℚ) :=
  [(1, 10), (2, 20), (3, 30)]

/-- C10 witness: the configuration-selection theorem applied to a concrete
nonempty configuration list. -/
theorem c10_initial_configuration_witness :
    initialBeadPositions c10cfgs (3/2) 2 =
      some (List.replicate 2
        (((c10cfgs.find? (fun c => decide ((3/2 : ℚ) ≤ c.1))).getD
          (c10cfgs.getLast (by decide))).2)) :=
  c10_initial_configuration c10cfgs (3/2) 2 (by decide)

/-- One sampling batch of child trajectories in `computeRecrossingFactor`
(`main.py` lines 835-853).  The loop runs `for child in range(childrenPerSampling / 2)`
(Python 2 floor division), copies the parent position `q` once per iteration,
draws one momentum sample `p_child`, and launches two children from that same
position: first with the negated momentum `-p_child`, then with `p_child` as
drawn.  Momenta are abstracted to a single `ℚ` component and positions to a
`ℚ` value. -/
def childLaunches (cps : ℕ) (draw : ℕ → ℚ) (q0 : ℚ) : List (ℚ × ℚ) :=
  (List.range (cps / 2)).flatMap (fun k => [(-(draw k), q0), (draw k, q0)])

/-- Total increment of `childCount` during one sampling batch: the spawn loop
executes `childCount += 1` twice per iteration of
`range(childrenPerSampling / 2)` (`main.py` lines 844 and 853). -/
def childCountIncrement (cps : ℕ) : ℕ :=
  2 * (cps / 2)

/-- Collection loop of one batch (`main.py` lines 855-863):
`for child in range(childrenPerSampling)` reads `results[child]` and adds the
numerator and denominator contributions.  Reading past the end of `results`
raises an `IndexError` in Python, modelled by `none`. -/
def collectChildren (cps : ℕ) (results : List (ℚ × ℚ)) : Option (ℚ × ℚ) :=
  if cps ≤ results.length then
    some ((((results.take cps).map Prod.fst).sum), (((results.take cps).map Prod.snd).sum))
  else none

/-- Helper: length of a list built by binding two-element blocks over
`List.range m`. -/
theorem length_bind_pairs {α : Type} (m : ℕ) (f g : ℕ → α) :
    ((List.range m).flatMap (fun k => [f k, g k])).length = 2 * m := by
  induction m with
  | zero => rfl
  | succ n ih =>
    rw [List.range_succ, List.flatMap_append]
    simp [ih, Nat.mul_succ]

/-- Helper: indexing into a list built by binding two-element blocks over
`List.range m`. -/
theorem getD_bind_pairs {α : Type} [Inhabited α] (m : ℕ) (f g : ℕ → α) (d : α) :
    ∀ k < m, ((List.range m).flatMap (fun k => [f k, g k])).getD (2 * k) d = f k ∧
      ((List.range m).flatMap (fun k => [f k, g k])).getD (2 * k + 1) d = g k := by
  induction m with
  | zero => intro k hk; omega
  | succ n ih =>
    intro k hk
    rw [List.range_succ, List.flatMap_append]
    have hsing : (([n] : List ℕ).flatMap (fun k => [f k, g k])) = [f n, g n] := by simp
    rw [hsing]
    by_cases hkn : k < n
    · have h1 : 2 * k < ((List.range n).flatMap (fun k => [f k, g k])).length := by
        rw [length_bind_pairs]; omega
      have h2 : 2 * k + 1 < ((List.range n).flatMap (fun k => [f k, g k])).length := by
        rw [length_bind_pairs]; omega
      rw [List.getD_append _ _ _ _ h1, List.getD_append _ _ _ _ h2]
      exact ih k hkn
    · have hk2 : k = n := by omega
      subst hk2
      have hlen : ((List.range k).flatMap (fun k => [f k, g k])).length = 2 * k :=
        length_bind_pairs k f g
      constructor
      · rw [List.getD_append_right _ _ _ _ (by omega)]
        simp [hlen]
      · rw [List.getD_append_right _ _ _ _ (by omega)]
        simp [hlen]

/-- C5 (as amended): in every child-trajectory batch, for every positive
**even** `childrenPerSampling`, exactly `childrenPerSampling` children are
launched and `childCount` increases by exactly `childrenPerSampling`; the
children come in antithetic pairs, child `2k` carrying the negation of the
`k`-th drawn momentum and child `2k+1` the momentum as drawn, both started
from the same parent position.  (For odd batch sizes the Python 2 floor
division launches only `childrenPerSampling - 1` children, see the
counterexample.) -/
theorem c5_antithetic_pairing (cps : ℕ) (draw : ℕ → ℚ) (q0 : ℚ)
    (_hpos : 0 < cps) (heven : 2 ∣ cps) :
    childCountIncrement cps = cps ∧
    (childLaunches cps draw q0).length = cps ∧
    ∀ k < cps / 2,
      (childLaunches cps draw q0).getD (2 * k) (0, 0) = (-(draw k), q0) ∧
      (childLaunches cps draw q0).getD (2 * k + 1) (0, 0) = (draw k, q0) := by
  have hinc : childCountIncrement cps = cps := by
    unfold childCountIncrement
    omega
  refine ⟨hinc, ?_, ?_⟩
  · rw [childLaunches, length_bind_pairs]
    omega
  · intro k hk
    exact getD_bind_pairs (cps / 2) (fun k => (-(draw k), q0)) (fun k => (draw k, q0))
      (0, 0) k hk

/-- C5 witness: the pairing theorem applied at the concrete even batch size 4. -/
theorem c5_antithetic_pairing_witness :
    childCountIncrement 4 = 4 ∧
    (childLaunches 4 (fun k => (k : ℚ) + 1) 5).length = 4 ∧
    ∀ k < 4 / 2,
      (childLaunches 4 (fun k => (k : ℚ) + 1) 5).getD (2 * k) (0, 0) =
        (-((k : ℚ) + 1), 5) ∧
      (childLaunches 4 (fun k => (k : ℚ) + 1) 5).getD (2 * k + 1) (0, 0) =
        ((k : ℚ) + 1, 5) :=
  c5_antithetic_pairing 4 (fun k => (k : ℚ) + 1) 5 (by decide) (by decide)

/-- C5 counterexample: with the odd batch size `childrenPerSampling = 3` the
spawn loop runs `range(3 / 2) = range(1)` and launches only 2 children, so
`childCount` increases by 2, not 3, and the collection loop, which reads 3
results, runs off the end of the 2-element result list (an `IndexError`).
This falsifies the claim's "for every positive value of
`childrenPerSampling`". -/
theorem c5_counterexample :
    childCountIncrement 3 = 2 ∧ ¬(childCountIncrement 3 = 3) ∧
    (childLaunches 3 (fun _ => 1) 0).length = 2 ∧
    collectChildren 3 ((childLaunches 3 (fun _ => 1) 0).map (fun _ => (1, 1))) = none := by
  decide

/-- Sliding-window convergence test of `computeRecrossingFactor`
(`main.py` lines 879-886).  After appending the current estimate the code
runs:

`if len(recrossingFactor) > 10:` then `done = True` and
`for i in range(-10, 0): factor0 = recrossingFactor[-i]; factor = recrossingFactor[-1]`
with `done = False` when `abs(factor0 - factor) > tolerance * abs(factor)`.

Because `i` ranges over `-10 .. -1`, the index `-i` is the *positive* index
`10 .. 1`, so the estimates compared against the most recent one are the 2nd
through 11th recorded estimates counted from the start of the history, not
the last 10; and the test only runs once *more* than 10 estimates exist. -/
def recrossingConverged (hist : List ℚ) (tol : ℚ) : Bool :=
  if 10 < hist.length then
    (List.range' 1 10).all (fun j =>
      decide (|hist.getD j 0 - hist.getLast?.getD 0| ≤ tol * |hist.getLast?.getD 0|))
  else false

/-- State of the child-sampling loop of `computeRecrossingFactor`
(`main.py` lines 827-893): the last entry of `kappa_num`, the scalar
`kappa_denom`, `childCount`, the recorded estimate history
(`recrossingFactor` list) and the `done` flag. -/
structure RecrossState where
  num : ℚ
  den : ℚ
  childCount : ℕ
  history : List ℚ
  done : Bool
  deriving DecidableEq, Repr

/-- One iteration of the `while childCount < childTrajectories and not done`
loop for a child-trajectory source in which every collected child contributes
the same amount `a` to the last numerator entry and `b` to the denominator
(the synthetic constant source of the claim).  The batch accumulates the
`cps` collected contributions (even `cps`; an odd `cps` raises an
`IndexError` in the collection loop, see `collectChildren`), records the
estimate `kappa_num[-1] / kappa_denom`, and re-evaluates the convergence
flag.  When the loop guard fails the state is unchanged. -/
def recrossStep (a b tol : ℚ) (cps childTrajectories : ℕ) (s : RecrossState) : RecrossState :=
  if s.childCount < childTrajectories ∧ s.done = false then
    let num := s.num + (cps : ℚ) * a
    let den := s.den + (cps : ℚ) * b
    let hist := s.history ++ [num / den]
    { num := num, den := den, childCount := s.childCount + childCountIncrement cps,
      history := hist, done := recrossingConverged hist tol }
  else s

/-- Initial recrossing loop state without a pre-existing checkpoint
(`main.py` lines 736-738): zero sums, zero completed children, empty
estimate history. -/
def recrossInit : RecrossState :=
  { num := 0, den := 0, childCount := 0, history := [], done := false }

/-- Running the child-sampling loop for a bounded number of iterations (the
loop is a fixpoint of `recrossStep` once its guard fails, so any sufficiently
large fuel yields the terminal state). -/
def recrossRun (a b tol : ℚ) (cps childTrajectories fuel : ℕ) : RecrossState :=
  (recrossStep a b tol cps childTrajectories)^[fuel] recrossInit

/-- Helper: `getD` on a replicated list inside the bound. -/
theorem getD_replicate_of_lt (n j : ℕ) (r d : ℚ) (h : j < n) :
    (List.replicate n r).getD j d = r := by
  simp [List.getD, List.getElem?_replicate, h]

/-- Helper: last element of a nonempty replicated list. -/
theorem getLast?_replicate_of_ne (n : ℕ) (r : ℚ) (h : n ≠ 0) :
    (List.replicate n r).getLast? = some r := by
  induction n with
  | zero => exact absurd rfl h
  | succ m ih =>
    cases m with
    | zero => rfl
    | succ m2 =>
      rw [List.replicate_succ, List.getLast?_cons, ih (by omega)]
      simp [List.getLast?_eq_none_iff]

/-- Helper: on a history of `n` identical estimates the code's convergence
test succeeds exactly when more than 10 estimates exist (for a non-negative
tolerance). -/
theorem recrossingConverged_replicate (n : ℕ) (r tol : ℚ) (ht : 0 ≤ tol) :
    recrossingConverged (List.replicate n r) tol = decide (10 < n) := by
  by_cases h : 10 < n
  · have hd : decide (10 < n) = true := by simp [h]
    rw [recrossingConverged]
    simp only [List.length_replicate]
    rw [if_pos h, hd, List.all_eq_true]
    intro j hj
    have hj2 : j < 11 := by
      have := List.mem_range'_1.mp hj
      omega
    rw [getLast?_replicate_of_ne n r (by omega), getD_replicate_of_lt n j r 0 (by omega)]
    simp only [Option.getD_some, sub_self, abs_zero, decide_eq_true_eq]
    exact mul_nonneg ht (abs_nonneg r)
  · simp [recrossingConverged, h]

/-- Helper: a state whose `done` flag is set is a fixed point of the
sampling-loop step. -/
theorem recrossStep_fixed (a b tol : ℚ) (cps T : ℕ) (s : RecrossState)
    (h : s.done = true) : recrossStep a b tol cps T s = s := by
  rw [recrossStep, if_neg]
  simp [h]

/-- Helper: closed form of the first eleven iterations of the sampling loop
under a constant per-child contribution. -/
theorem recrossRun_constant_prefix (a b tol : ℚ) (cps T : ℕ) (hb : b ≠ 0)
    (hcps : 0 < cps) (heven : 2 ∣ cps) (ht : 0 ≤ tol) (hT : 10 * cps < T) :
    ∀ n, n ≤ 11 → recrossRun a b tol cps T n =
      { num := (n : ℚ) * cps * a, den := (n : ℚ) * cps * b, childCount := n * cps,
        history := List.replicate n (a / b), done := decide (n = 11) } := by
  intro n
  induction n with
  | zero =>
    intro _
    simp [recrossRun, recrossInit]
  | succ m ih =>
    intro hm
    have hm10 : m ≤ 10 := by omega
    have hprev := ih (by omega)
    rw [recrossRun, Function.iterate_succ_apply', ← recrossRun, hprev]
    have hguard : m * cps < T ∧ decide (m = 11) = false := by
      constructor
      · calc m * cps ≤ 10 * cps := Nat.mul_le_mul_right cps hm10
          _ < T := hT
      · simp only [decide_eq_false_iff_not]
        omega
    rw [recrossStep, if_pos hguard]
    have hinc : childCountIncrement cps = cps := by
      unfold childCountIncrement
      omega
    have hnum : (m : ℚ) * cps * a + (cps : ℚ) * a = ((m + 1 : ℕ) : ℚ) * cps * a := by
      push_cast
      ring
    have hden : (m : ℚ) * cps * b + (cps : ℚ) * b = ((m + 1 : ℕ) : ℚ) * cps * b := by
      push_cast
      ring
    have hne1 : ((m + 1 : ℕ) : ℚ) ≠ 0 := Nat.cast_ne_zero.mpr (by omega)
    have hne2 : (cps : ℚ) ≠ 0 := Nat.cast_ne_zero.mpr (by omega)
    have hest : (((m + 1 : ℕ) : ℚ) * cps * a) / (((m + 1 : ℕ) : ℚ) * cps * b) = a / b := by
      rw [div_eq_div_iff (mul_ne_zero (mul_ne_zero hne1 hne2) hb) hb]
      ring
    simp only [hnum, hden, hest, hinc]
    have hhist : List.replicate m (a / b) ++ [a / b] = List.replicate (m + 1) (a / b) :=
      (List.replicate_succ' m (a / b)).symm
    rw [hhist, recrossingConverged_replicate (m + 1) (a / b) tol ht]
    have hdec : decide (10 < m + 1) = decide (m + 1 = 11) := by
      simp only [decide_eq_decide]
      omega
    have hcc : m * cps + cps = (m + 1) * cps := by ring
    rw [hdec, hcc]

/-- C1 (as amended): the child-trajectory sampling loop of
`computeRecrossingFactor` stops only once *more* than 10
transmission-coefficient estimates have been recorded, and the estimates it
compares against the most recent one are the 2nd through 11th recorded
estimates (positive indices 1..10 from the start of the history, an effect of
`recrossingFactor[-i]` with `i` in `range(-10, 0)`), with a non-strict
tolerance test.  Consequently, with a child-trajectory source that always
returns the same numerator/denominator contribution, the convergence test
triggers after exactly 11 recorded estimates (not 10): the terminal loop
state holds a history of length 11 with the `done` flag set, provided the
child-trajectory budget does not run out first
(`10 * childrenPerSampling < childTrajectories`). -/
theorem c1_recrossing_convergence (a b tol : ℚ) (cps T fuel : ℕ) (hb : b ≠ 0)
    (hcps : 0 < cps) (heven : 2 ∣ cps) (ht : 0 ≤ tol) (hT : 10 * cps < T)
    (hfuel : 11 ≤ fuel) :
    (recrossRun a b tol cps T fuel).history.length = 11 ∧
      (recrossRun a b tol cps T fuel).done = true := by
  have h11 := recrossRun_constant_prefix a b tol cps T hb hcps heven ht hT 11 le_rfl
  have hstable : ∀ k, recrossRun a b tol cps T (k + 11) = recrossRun a b tol cps T 11 := by
    intro k
    induction k with
    | zero => rfl
    | succ j ihj =>
      have : j + 1 + 11 = (j + 11) + 1 := by omega
      rw [this, recrossRun, Function.iterate_succ_apply', ← recrossRun, ihj]
      apply recrossStep_fixed
      rw [h11]
      simp
  have hsplit : fuel = (fuel - 11) + 11 := by omega
  rw [hsplit, hstable (fuel - 11), h11]
  simp

/-- C1 witness: the amended convergence theorem applied at a concrete
constant source (contribution `(1, 1)` per child, batch size 2, tolerance
`1/100`, budget 100, fuel 20). -/
theorem c1_recrossing_convergence_witness :
    (recrossRun 1 1 (1/100) 2 100 20).history.length = 11 ∧
      (recrossRun 1 1 (1/100) 2 100 20).done = true :=
  c1_recrossing_convergence 1 1 (1/100) 2 100 20 (by norm_num) (by norm_num)
    ⟨1, rfl⟩ (by norm_num) (by norm_num) (by norm_num)

/-- C1 counterexample: with a constant child-trajectory source the sampling
loop does *not* stop after 10 recorded estimates — after 10 batches the
convergence test (`len(recrossingFactor) > 10`) still fails — and the loop
terminates with 11 recorded estimates, falsifying the claim that the test
triggers after exactly 10 recorded estimates. -/
theorem c1_counterexample :
    (recrossRun 1 1 (1/100) 2 21 10).done = false ∧
      (recrossRun 1 1 (1/100) 2 21 10).history.length = 10 ∧
      (recrossRun 1 1 (1/100) 2 21 12).history.length = 11 ∧
      ¬((recrossRun 1 1 (1/100) 2 21 12).history.length = 10) := by
  have hb : (1 : ℚ) ≠ 0 := one_ne_zero
  have h10 := recrossRun_constant_prefix 1 1 (1/100) 2 21 hb (by norm_num) ⟨1, rfl⟩
    (by norm_num) (by norm_num) 10 (by norm_num)
  have h11 := recrossRun_constant_prefix 1 1 (1/100) 2 21 hb (by norm_num) ⟨1, rfl⟩
    (by norm_num) (by norm_num) 11 le_rfl
  have h12 : recrossRun 1 1 (1/100) 2 21 12 = recrossRun 1 1 (1/100) 2 21 11 := by
    have he : (12 : ℕ) = 11 + 1 := rfl
    rw [recrossRun, he, Function.iterate_succ_apply', ← recrossRun]
    apply recrossStep_fixed
    rw [h11]
    simp
  refine ⟨?_, ?_, ?_, ?_⟩
  · rw [h10]
    simp
  · rw [h10]
    simp
  · rw [h12, h11]
    simp
  · rw [h12, h11]
    simp

/-- Rational stand-in for `constants.pi` (the IEEE-double value of pi used
by the Python code).  No claim under study depends on its numerical value. -/
def piQ : ℚ :=
  3.141592653589793

/-- Running mean and variance of a window as computed at the start of the
inner loop of `calculatePotentialOfMeanForce` (`main.py` lines 656-659):
`av = window.av / window.count`, `av2 = window.av2 / window.count`,
`xi_var = av2 - av * av`.  For a window with `count = 0` the value `av` is
still the pristine Python float `0.0` and the division `0.0 / 0` raises a
`ZeroDivisionError`, modelled by `none`; there is no zero-count guard in the
code. -/
def windowMeanVar (w : UWindow) : Option (ℚ × ℚ) :=
  if w.count = 0 then none
  else
    some (w.av / (w.count : ℚ), w.av2 / (w.count : ℚ) - (w.av / (w.count : ℚ)) * (w.av / (w.count : ℚ)))

/-- Gaussian weight of a window at a grid point (`main.py` line 662):
`p[l] = 1.0 / numpy.sqrt(2 * pi * xi_var) * numpy.exp(-0.5 * (xi - xi_mean)**2 / xi_var)`.
`numpy.sqrt` and `numpy.exp` are opaque collaborators passed in as `sqrtF`
and `expF`. -/
def windowWeight (sqrtF expF : ℚ → ℚ) (xi : ℚ) (mv : ℚ × ℚ) : ℚ :=
  1 / sqrtF (2 * piQ * mv.2) * expF (-(1/2) * (xi - mv.1) ^ 2 / mv.2)

/-- Local free-energy-slope estimate of a window at a grid point
(`main.py` line 663):
`dA0[l] = (1.0 / beta) * (xi - xi_mean) / xi_var - kforce * (xi - xi_window)`. -/
def windowSlope (beta xi : ℚ) (w : UWindow) (mv : ℚ × ℚ) : ℚ :=
  (1 / beta) * (xi - mv.1) / mv.2 - w.kforce * (xi - w.xi)

/-- Sequential fallible iteration, as performed by Python loops whose body
may raise: the first failure aborts the whole computation. -/
def optionMapM {α β : Type} (f : α → Option β) : List α → Option (List β)
  | [] => some []
  | x :: t => (f x).bind (fun y => (optionMapM f t).map (fun ys => y :: ys))

/-- Weighted slope at one grid point (`main.py` lines 655-664):
`dA[n] = numpy.sum(N * p * dA0) / numpy.sum(N * p)` where `N[l]` is the
window's sample count.  The inner window loop fails (`ZeroDivisionError`)
when any window has a zero count; divisions of the numpy floats themselves
(zero variance, zero weight sum) silently produce non-finite values in
Python and are modelled by the total division of `ℚ`. -/
def dAatPoint (sqrtF expF : ℚ → ℚ) (beta : ℚ) (ws : List UWindow) (xi : ℚ) : Option ℚ :=
  (optionMapM windowMeanVar ws).map (fun mvs =>
    (List.zipWith
        (fun w mv => (w.count : ℚ) * windowWeight sqrtF expF xi mv * windowSlope beta xi w mv)
        ws mvs).sum /
      (List.zipWith (fun w mv => (w.count : ℚ) * windowWeight sqrtF expF xi mv) ws mvs).sum)

/-- Coordinate grid `xi_list = numpy.linspace(xi_min, xi_max, bins, True)`
(`main.py` line 643). -/
def xiGrid (xiMin xiMax : ℚ) (bins : ℕ) : List ℚ :=
  (List.range bins).map (fun (n : ℕ) => xiMin + (n : ℚ) * (xiMax - xiMin) / ((bins : ℚ) - 1))

/-- Trapezoidal rule `numpy.trapz(y, x)`: the sum of
`(x[i+1] - x[i]) * (y[i] + y[i+1]) / 2` over consecutive pairs; zero when
fewer than two points are given. -/
def trapzQ : List ℚ → List ℚ → ℚ
  | y1 :: y2 :: ys, x1 :: x2 :: xs => (x2 - x1) * (y1 + y2) / 2 + trapzQ (y2 :: ys) (x2 :: xs)
  | _, _ => 0

/-- Embedding of `calculatePotentialOfMeanForce` (`main.py` lines 630-673):
compute the slope series `dA` over the grid, then store at each grid point
`n` the pair `(xi_list[n], numpy.trapz(dA[:n], xi_list[:n]))`
(`main.py` lines 667-670).  Failure of the slope computation
(`ZeroDivisionError` on a zero-count window) aborts the whole call. -/
def calculatePotentialOfMeanForce (sqrtF expF : ℚ → ℚ) (beta : ℚ) (ws : List UWindow)
    (xiMin xiMax : ℚ) (bins : ℕ) : Option (List (ℚ × ℚ)) :=
  (optionMapM (dAatPoint sqrtF expF beta ws) (xiGrid xiMin xiMax bins)).map (fun dA =>
    (List.range bins).map (fun n =>
      ((xiGrid xiMin xiMax bins).getD n 0, trapzQ (dA.take n) ((xiGrid xiMin xiMax bins).take n))))

/-- Helper: a fallible iteration succeeds exactly when every element
succeeds. -/
theorem optionMapM_isSome {α β : Type} (f : α → Option β) :
    ∀ l : List α, (optionMapM f l).isSome = true ↔ ∀ x ∈ l, (f x).isSome = true := by
  intro l
  induction l with
  | nil => simp [optionMapM]
  | cons x t ih =>
    rw [optionMapM]
    cases hfx : f x with
    | none => simp [hfx]
    | some y =>
      rw [Option.some_bind, Option.isSome_map', ih]
      simp [hfx, List.forall_mem_cons]

/-- Helper: a fallible iteration preserves list length. -/
theorem optionMapM_length {α β : Type} (f : α → Option β) :
    ∀ (l : List α) (r : List β), optionMapM f l = some r → r.length = l.length := by
  intro l
  induction l with
  | nil =>
    intro r hr
    rw [optionMapM] at hr
    cases hr
    rfl
  | cons x t ih =>
    intro r hr
    rw [optionMapM] at hr
    cases hfx : f x with
    | none =>
      rw [hfx] at hr
      simp at hr
    | some y =>
      rw [hfx, Option.some_bind] at hr
      cases hmt : optionMapM f t with
      | none =>
        rw [hmt] at hr
        simp at hr
      | some ys =>
        rw [hmt, Option.map_some'] at hr
        cases hr
        simp [ih ys hmt]

/-- Helper: `windowMeanVar` succeeds exactly on nonzero sample counts. -/
theorem windowMeanVar_isSome (w : UWindow) :
    (windowMeanVar w).isSome = true ↔ w.count ≠ 0 := by
  by_cases h : w.count = 0 <;> simp [windowMeanVar, h]

/-- C2 (as amended): `calculatePotentialOfMeanForce` does **not** exclude
zero-count windows — the division `window.av / window.count` is executed for
every window at every grid point, so (for at least one grid point) the call
succeeds exactly when every window has a nonzero sample count; a zero-count
window makes the whole computation fail with a `ZeroDivisionError` rather
than being skipped. -/
theorem c2_zero_count_window (sqrtF expF : ℚ → ℚ) (beta : ℚ) (ws : List UWindow)
    (xiMin xiMax : ℚ) (bins : ℕ) (hbins : 0 < bins) :
    (calculatePotentialOfMeanForce sqrtF expF beta ws xiMin xiMax bins).isSome = true ↔
      ∀ w ∈ ws, w.count ≠ 0 := by
  rw [calculatePotentialOfMeanForce, Option.isSome_map',
    optionMapM_isSome (dAatPoint sqrtF expF beta ws) (xiGrid xiMin xiMax bins)]
  have hpoint : ∀ xi : ℚ, (dAatPoint sqrtF expF beta ws xi).isSome = true ↔
      ∀ w ∈ ws, w.count ≠ 0 := by
    intro xi
    rw [dAatPoint, Option.isSome_map', optionMapM_isSome windowMeanVar ws]
    exact forall₂_congr (fun w _ => windowMeanVar_isSome w)
  have hne : xiGrid xiMin xiMax bins ≠ [] := by
    have hlen : (xiGrid xiMin xiMax bins).length = bins := by
      rw [xiGrid, List.length_map, List.length_range]
    intro hnil
    rw [hnil] at hlen
    simp at hlen
    omega
  obtain ⟨x0, hx0⟩ := List.exists_mem_of_ne_nil _ hne
  constructor
  · intro h
    exact (hpoint x0).mp (h x0 hx0)
  · intro h xi _
    exact (hpoint xi).mpr h

/-- Concrete window list with a zero-count window, a failing input for
`calculatePotentialOfMeanForce`. -/
def c2ws : List UWindow :=
  [{ xi := 1, kforce := 1, trajectories := 1, evolutionSteps := 1, av := 0, av2 := 0, count := 0 }]

/-- Concrete window list whose single window has a positive count. -/
def c2wsPos : List UWindow :=
  [{ xi := 1, kforce := 1, trajectories := 1, evolutionSteps := 1, av := 0, av2 := 0, count := 1 }]

/-- C2 witness: the amended characterization applied at a concrete call with
two grid points and a single positive-count window. -/
theorem c2_zero_count_window_witness :
    (calculatePotentialOfMeanForce (fun x => x) (fun x => x) 1 c2wsPos 0 1 2).isSome = true ↔
      ∀ w ∈ c2wsPos, w.count ≠ 0 :=
  c2_zero_count_window (fun x => x) (fun x => x) 1 c2wsPos 0 1 2 (by decide)

/-- C2 counterexample: at a concrete call whose window list contains a
window with `count = 0`, `calculatePotentialOfMeanForce` fails (the division
by the zero count is reached), falsifying the claim that zero-count windows
are excluded from the weighted sum and no division by a zero count is ever
performed. -/
theorem c2_counterexample :
    calculatePotentialOfMeanForce (fun x => x) (fun x => x) 1 c2ws 0 1 2 = none ∧
      ¬((calculatePotentialOfMeanForce (fun x => x) (fun x => x) 1 c2ws 0 1 2).isSome = true) := by
  constructor
  · rfl
  · intro h
    rw [show calculatePotentialOfMeanForce (fun x => x) (fun x => x) 1 c2ws 0 1 2 = none
      from rfl] at h
    simp at h

/-- Helper: unfolding equation of the trapezoidal sum on two leading points. -/
theorem trapzQ_cons_cons (y1 y2 x1 x2 : ℚ) (ys xs : List ℚ) :
    trapzQ (y1 :: y2 :: ys) (x1 :: x2 :: xs) =
      (x2 - x1) * (y1 + y2) / 2 + trapzQ (y2 :: ys) (x2 :: xs) :=
  rfl

/-- Helper: the trapezoidal sum of fewer than two points is zero. -/
theorem trapzQ_of_short : ∀ (ys xs : List ℚ), ys.length ≤ 1 → trapzQ ys xs = 0 := by
  intro ys xs h
  cases ys with
  | nil =>
    cases xs with
    | nil => rfl
    | cons x t =>
      cases t with
      | nil => rfl
      | cons x2 t2 => rfl
  | cons y t =>
    cases t with
    | nil =>
      cases xs with
      | nil => rfl
      | cons x s =>
        cases s with
        | nil => rfl
        | cons x2 s2 => rfl
    | cons y2 t2 => simp at h

/-- Helper: peeling the last retained grid segment off a trapezoidal prefix
sum: extending the prefix from `n + 1` to `n + 2` points adds the segment
between points `n` and `n + 1`. -/
theorem trapzQ_take_succ_succ :
    ∀ (n : ℕ) (ys xs : List ℚ), n + 2 ≤ ys.length → n + 2 ≤ xs.length →
      trapzQ (ys.take (n + 2)) (xs.take (n + 2)) =
        trapzQ (ys.take (n + 1)) (xs.take (n + 1)) +
          (xs.getD (n + 1) 0 - xs.getD n 0) * (ys.getD n 0 + ys.getD (n + 1) 0) / 2 := by
  intro n
  induction n with
  | zero =>
    intro ys xs h1 h2
    cases ys with
    | nil => simp at h1
    | cons y1 t1 =>
      cases t1 with
      | nil => simp at h1
      | cons y2 t2 =>
        cases xs with
        | nil => simp at h2
        | cons x1 s1 =>
          cases s1 with
          | nil => simp at h2
          | cons x2 s2 =>
            rw [show (y1 :: y2 :: t2).take (0 + 2) = [y1, y2] from rfl,
              show (x1 :: x2 :: s2).take (0 + 2) = [x1, x2] from rfl,
              show (y1 :: y2 :: t2).take (0 + 1) = [y1] from rfl,
              show (x1 :: x2 :: s2).take (0 + 1) = [x1] from rfl,
              show (x1 :: x2 :: s2).getD (0 + 1) 0 = x2 from rfl,
              show (x1 :: x2 :: s2).getD 0 0 = x1 from rfl,
              show (y1 :: y2 :: t2).getD (0 + 1) 0 = y2 from rfl,
              show (y1 :: y2 :: t2).getD 0 0 = y1 from rfl,
              trapzQ_cons_cons]
            rw [show trapzQ [y2] [x2] = 0 from rfl, show trapzQ [y1] [x1] = 0 from rfl]
            ring
  | succ m ih =>
    intro ys xs h1 h2
    cases ys with
    | nil => simp at h1
    | cons y1 t1 =>
      cases t1 with
      | nil => simp at h1
      | cons y2 t2 =>
        cases xs with
        | nil => simp at h2
        | cons x1 s1 =>
          cases s1 with
          | nil => simp at h2
          | cons x2 s2 =>
            have hy : m + 2 ≤ (y2 :: t2).length := by
              simp at h1 ⊢
              omega
            have hx : m + 2 ≤ (x2 :: s2).length := by
              simp at h2 ⊢
              omega
            have key := ih (y2 :: t2) (x2 :: s2) hy hx
            rw [show (y2 :: t2).take (m + 2) = y2 :: t2.take (m + 1) from rfl,
              show (x2 :: s2).take (m + 2) = x2 :: s2.take (m + 1) from rfl,
              show (y2 :: t2).take (m + 1) = y2 :: t2.take m from rfl,
              show (x2 :: s2).take (m + 1) = x2 :: s2.take m from rfl] at key
            rw [show (y1 :: y2 :: t2).take (m + 1 + 2) = y1 :: y2 :: t2.take (m + 1) from rfl,
              show (x1 :: x2 :: s2).take (m + 1 + 2) = x1 :: x2 :: s2.take (m + 1) from rfl,
              show (y1 :: y2 :: t2).take (m + 1 + 1) = y1 :: y2 :: t2.take m from rfl,
              show (x1 :: x2 :: s2).take (m + 1 + 1) = x1 :: x2 :: s2.take m from rfl,
              show (x1 :: x2 :: s2).getD (m + 1 + 1) 0 = (x2 :: s2).getD (m + 1) 0 from rfl,
              show (x1 :: x2 :: s2).getD (m + 1) 0 = (x2 :: s2).getD m 0 from rfl,
              show (y1 :: y2 :: t2).getD (m + 1 + 1) 0 = (y2 :: t2).getD (m + 1) 0 from rfl,
              show (y1 :: y2 :: t2).getD (m + 1) 0 = (y2 :: t2).getD m 0 from rfl,
              trapzQ_cons_cons, trapzQ_cons_cons, key]
            ring

/-- Helper: indexing into a list produced by mapping over `List.range`. -/
theorem getD_map_range {β : Type} (bins m : ℕ) (f : ℕ → β) (d : β) (h : m < bins) :
    ((List.range bins).map f).getD m d = f m := by
  simp [List.getD_eq_getElem?_getD, List.getElem?_map, List.getElem?_range, h]

/-- C4 (as amended): for a successful `calculatePotentialOfMeanForce` call
the value stored at grid point `n` is the trapezoidal integral of the slope
series over the **first `n` grid points only** (Python `numpy.trapz(dA[:n],
xi_list[:n])`, which excludes grid point `n` itself): the values at the
first two grid points are both zero, and the value at grid point `n + 2`
exceeds the value at grid point `n + 1` by the trapezoid of the segment
between grid points `n` and `n + 1` — one grid segment behind the
inclusive cumulative integral asserted by the claim. -/
theorem c4_trapezoid_integral (sqrtF expF : ℚ → ℚ) (beta : ℚ) (ws : List UWindow)
    (xiMin xiMax : ℚ) (bins : ℕ) (pmf : List (ℚ × ℚ)) (dA : List ℚ)
    (hpmf : calculatePotentialOfMeanForce sqrtF expF beta ws xiMin xiMax bins = some pmf)
    (hdA : optionMapM (dAatPoint sqrtF expF beta ws) (xiGrid xiMin xiMax bins) = some dA) :
    (0 < bins → (pmf.getD 0 (0, 0)).2 = 0) ∧
      (1 < bins → (pmf.getD 1 (0, 0)).2 = 0) ∧
      ∀ n, n + 2 < bins →
        (pmf.getD (n + 2) (0, 0)).2 =
          (pmf.getD (n + 1) (0, 0)).2 +
            ((xiGrid xiMin xiMax bins).getD (n + 1) 0 - (xiGrid xiMin xiMax bins).getD n 0) *
              (dA.getD n 0 + dA.getD (n + 1) 0) / 2 := by
  have hpmf2 : pmf = (List.range bins).map (fun n =>
      ((xiGrid xiMin xiMax bins).getD n 0,
        trapzQ (dA.take n) ((xiGrid xiMin xiMax bins).take n))) := by
    rw [calculatePotentialOfMeanForce, hdA, Option.map_some'] at hpmf
    exact (Option.some.inj hpmf).symm
  have hglen : (xiGrid xiMin xiMax bins).length = bins := by
    rw [xiGrid, List.length_map, List.length_range]
  have hdlen : dA.length = bins := by
    rw [optionMapM_length _ _ _ hdA, hglen]
  have hval : ∀ m, m < bins → pmf.getD m (0, 0) =
      ((xiGrid xiMin xiMax bins).getD m 0,
        trapzQ (dA.take m) ((xiGrid xiMin xiMax bins).take m)) := by
    intro m hm
    rw [hpmf2, getD_map_range bins m _ _ hm]
  refine ⟨?_, ?_, ?_⟩
  · intro h0
    rw [hval 0 h0]
    exact trapzQ_of_short _ _ (by simp)
  · intro h1
    rw [hval 1 h1]
    exact trapzQ_of_short _ _ (by
      rw [List.length_take]
      exact min_le_left _ _)
  · intro n hn
    rw [hval (n + 2) hn, hval (n + 1) (by omega)]
    exact trapzQ_take_succ_succ n dA (xiGrid xiMin xiMax bins) (by omega) (by omega)

/-- Concrete single-window list giving the slope series `dA[n] = xi_n`:
mean 0 and variance 1 (`av = 0`, `av2 = 1`, `count = 1`), no restraint. -/
def c4ws : List UWindow :=
  [{ xi := 0, kforce := 0, trajectories := 1, evolutionSteps := 1, av := 0, av2 := 1, count := 1 }]

/-- C4 witness: the amended trapezoid theorem applied at a concrete
successful call (one positive-count window, three grid points). -/
theorem c4_trapezoid_integral_witness :
    ∃ pmf dA,
      calculatePotentialOfMeanForce (fun _ => 1) (fun _ => 1) 1 c4ws 0 2 3 = some pmf ∧
        optionMapM (dAatPoint (fun _ => 1) (fun _ => 1) 1 c4ws) (xiGrid 0 2 3) = some dA ∧
        ((0 < 3 → (pmf.getD 0 (0, 0)).2 = 0) ∧
          (1 < 3 → (pmf.getD 1 (0, 0)).2 = 0) ∧
          ∀ n, n + 2 < 3 →
            (pmf.getD (n + 2) (0, 0)).2 =
              (pmf.getD (n + 1) (0, 0)).2 +
                ((xiGrid 0 2 3).getD (n + 1) 0 - (xiGrid 0 2 3).getD n 0) *
                  (dA.getD n 0 + dA.getD (n + 1) 0) / 2) :=
  ⟨_, _, rfl, rfl, c4_trapezoid_integral (fun _ => 1) (fun _ => 1) 1 c4ws 0 2 3 _ _ rfl rfl⟩

/-- C4 counterexample: at a concrete call (grid `[0, 1, 2]`, slope series
`dA = [0, 1, 2]`) the value stored at grid point 1 is `0`, whereas the
trapezoidal-rule cumulative integral of `dA` up to grid point 1 is `1/2`;
the stored table is `[(0, 0), (1, 0), (2, 1/2)]`, falsifying the claim that
the value at each grid point `n` is the cumulative integral up to grid
point `n`. -/
theorem c4_counterexample :
    calculatePotentialOfMeanForce (fun _ => 1) (fun _ => 1) 1 c4ws 0 2 3 =
      some [(0, 0), (1, 0), (2, 1/2)] ∧
      optionMapM (dAatPoint (fun _ => 1) (fun _ => 1) 1 c4ws) (xiGrid 0 2 3) = some [0, 1, 2] ∧
      trapzQ [0, 1] [0, 1] = 1/2 ∧
      ¬((([((0 : ℚ), (0 : ℚ)), (1, 0), (2, 1/2)]).getD 1 (0, 0)).2 = trapzQ [0, 1] [0, 1]) := by
  have hrange : List.range 3 = [0, 1, 2] := rfl
  have hgrid : xiGrid 0 2 3 = [0 + (0 : ℚ) * (2 - 0) / (3 - 1), 0 + (1 : ℚ) * (2 - 0) / (3 - 1),
      0 + (2 : ℚ) * (2 - 0) / (3 - 1)] := by
    rw [xiGrid, hrange]
    norm_num
  refine ⟨?_, ?_, ?_, ?_⟩
  · rw [calculatePotentialOfMeanForce]
    rw [show optionMapM (dAatPoint (fun _ => 1) (fun _ => 1) 1 c4ws) (xiGrid 0 2 3) =
      some [0, 1, 2] from ?_]
    · rw [Option.map_some', hrange]
      simp only [List.map_cons, List.map_nil]
      rw [hgrid]
      simp only [trapzQ, List.take, List.getD_cons_zero, List.getD_cons_succ]
      norm_num
    · rw [hgrid]
      simp only [optionMapM, dAatPoint, windowMeanVar, windowWeight, windowSlope, c4ws]
      norm_num
  · rw [hgrid]
    simp only [optionMapM, dAatPoint, windowMeanVar, windowWeight, windowSlope, c4ws]
    norm_num
  · rw [show trapzQ [(0 : ℚ), 1] [0, 1] = (1 - 0) * (0 + 1) / 2 + trapzQ [1] [1] from rfl,
      show trapzQ [(1 : ℚ)] [1] = 0 from rfl]
    norm_num
  · rw [show trapzQ [(0 : ℚ), 1] [0, 1] = (1 - 0) * (0 + 1) / 2 + trapzQ [1] [1] from rfl,
      show trapzQ [(1 : ℚ)] [1] = 0 from rfl]
    norm_num

/-- Maximum of a list of values, embedding `numpy.max` applied to the PMF
value row (`main.py` line 612).  `numpy.max` of the *values* (not of their
absolute values).  `numpy.max` raises on an empty array; reachable only with
`bins = 0`, modelled as `0` (the claims under study keep `bins ≥ 1`). -/
def maxQ : List ℚ → ℚ
  | [] => 0
  | x :: xs => xs.foldl max x

/-- Divergence test for one bin in the convergence check of
`computePotentialOfMeanForce` (`main.py` lines 613-615):
`error = abs(pmf[1,i] - pmf0[1,i])` exceeds
`tolerance * abs(maxPotentialOfMeanForce)`, where the threshold uses the
absolute value of the *signed* maximum of the current PMF values. -/
def binDiverges (pmf : List (ℚ × ℚ)) (pmf0 : List ℚ) (tol : ℚ) (i : ℕ) : Bool :=
  decide (tol * |maxQ (pmf.map Prod.snd)| < |(pmf.getD i (0, 0)).2 - pmf0.getD i 0|)

/-- Re-dispatch condition for one window once bin `i` has been found
divergent (`main.py` line 621): the window center lies at or beyond the
coordinate of bin `i - 1` (note the `i-1`, not `i`) and the window's sample
count has not reached `trajectories * evolutionSteps`.  The code recomputes
`evolutionSteps = int(round(window.evolutionTime / self.dt))`; the model
stores that step count directly on the window. -/
def windowNeedsMore (pmf : List (ℚ × ℚ)) (i : ℕ) (w : UWindow) : Bool :=
  decide ((pmf.getD (i - 1) (0, 0)).1 ≤ w.xi) &&
    decide (w.count < ((w.trajectories * w.evolutionSteps : ℕ) : ℤ))

/-- Convergence re-dispatch step of `computePotentialOfMeanForce`
(`main.py` lines 612-623): scan bins `1 .. bins-1` in increasing order for
the first divergent bin; if one is found, mark every window satisfying
`windowNeedsMore` (the scan `break`s after the first divergent bin); if no
bin diverges no window is marked. -/
def markWindows (pmf : List (ℚ × ℚ)) (pmf0 : List ℚ) (uws : List UWindow) (tol : ℚ) :
    List UWindow :=
  match (List.range' 1 (pmf.length - 1)).find? (binDiverges pmf pmf0 tol) with
  | none => []
  | some i => uws.filter (windowNeedsMore pmf i)

/-- Helper: characterization of `find?` over `List.range'` as the least
index in the range satisfying the predicate. -/
theorem find?_range'_eq_some (p : ℕ → Bool) :
    ∀ (len s i : ℕ), ((List.range' s len).find? p = some i ↔
      (s ≤ i ∧ i < s + len ∧ p i = true ∧ ∀ j, s ≤ j → j < i → p j = false)) := by
  intro len
  induction len with
  | zero =>
    intro s i
    simp only [List.range'_zero, List.find?_nil]
    constructor
    · intro h
      cases h
    · rintro ⟨h1, h2, -, -⟩
      omega
  | succ n ih =>
    intro s i
    rw [List.range'_succ]
    cases hp : p s with
    | true =>
      rw [List.find?_cons_of_pos _ hp]
      constructor
      · intro h
        have hi : i = s := (Option.some.inj h).symm
        subst hi
        exact ⟨le_rfl, by omega, hp, fun j hj1 hj2 => absurd (lt_of_le_of_lt hj1 hj2)
          (lt_irrefl i)⟩
      · rintro ⟨h1, h2, h3, h4⟩
        rcases eq_or_lt_of_le h1 with he | hlt
        · rw [he]
        · rw [h4 s le_rfl hlt] at hp
          cases hp
    | false =>
      rw [List.find?_cons_of_neg _ (by simp [hp])]
      rw [ih (s + 1) i]
      constructor
      · rintro ⟨h1, h2, h3, h4⟩
        exact ⟨by omega, by omega, h3, fun j hj1 hj2 => by
          rcases eq_or_lt_of_le hj1 with he | hlt
          · rw [← he]
            exact hp
          · exact h4 j (by omega) hj2⟩
      · rintro ⟨h1, h2, h3, h4⟩
        have hsi : s ≠ i := by
          intro he
          rw [← he] at h3
          rw [h3] at hp
          cases hp
        exact ⟨by omega, by omega, h3, fun j hj1 hj2 => h4 j (by omega) hj2⟩

/-- C3 (as amended): in each convergence check of
`computePotentialOfMeanForce`, a window is marked for another sampling pass
exactly when there is a first bin `i ≥ 1` (in increasing scan order) whose
PMF value deviates from the previous pass's value by more than
`tolerance * |max PMF value|` (the threshold uses the absolute value of the
*signed* maximum of the current PMF values, not the maximum absolute value),
the window's center lies at or beyond the coordinate of bin `i - 1` (the bin
*before* the divergent one, not bin `i` itself), the window's sample count
has not reached `trajectories * evolutionSteps`, and the window is among the
umbrella windows; if no bin diverges, no window is marked. -/
theorem c3_marked_windows (pmf : List (ℚ × ℚ)) (pmf0 : List ℚ) (uws : List UWindow)
    (tol : ℚ) (w : UWindow) (hne : pmf ≠ []) :
    w ∈ markWindows pmf pmf0 uws tol ↔
      ∃ i, 1 ≤ i ∧ i < pmf.length ∧
        tol * |maxQ (pmf.map Prod.snd)| < |(pmf.getD i (0, 0)).2 - pmf0.getD i 0| ∧
        (∀ j, 1 ≤ j → j < i →
          |(pmf.getD j (0, 0)).2 - pmf0.getD j 0| ≤ tol * |maxQ (pmf.map Prod.snd)|) ∧
        (pmf.getD (i - 1) (0, 0)).1 ≤ w.xi ∧
        w.count < ((w.trajectories * w.evolutionSteps : ℕ) : ℤ) ∧
        w ∈ uws := by
  have hlen : 1 ≤ pmf.length := by
    cases pmf with
    | nil => exact absurd rfl hne
    | cons a t => simp
  rw [markWindows]
  cases hfind : (List.range' 1 (pmf.length - 1)).find? (binDiverges pmf pmf0 tol) with
  | none =>
    rw [List.find?_eq_none] at hfind
    simp only [List.not_mem_nil, false_iff, not_exists]
    rintro i ⟨h1, h2, h3, -⟩
    have hmem : i ∈ List.range' 1 (pmf.length - 1) := by
      rw [List.mem_range'_1]
      omega
    have := hfind i hmem
    rw [binDiverges] at this
    simp only [decide_eq_true_eq] at this
    exact this h3
  | some i0 =>
    rw [find?_range'_eq_some] at hfind
    obtain ⟨hi1, hi2, hi3, hi4⟩ := hfind
    rw [binDiverges, decide_eq_true_eq] at hi3
    rw [List.mem_filter, windowNeedsMore]
    constructor
    · rintro ⟨hmem, hcond⟩
      simp only [Bool.and_eq_true, decide_eq_true_eq] at hcond
      refine ⟨i0, hi1, by omega, hi3, ?_, hcond.1, hcond.2, hmem⟩
      intro j hj1 hj2
      have := hi4 j hj1 hj2
      rw [binDiverges] at this
      simp only [decide_eq_false_iff_not, not_lt] at this
      exact this
    · rintro ⟨i, h1, h2, h3, h4, h5, h6, h7⟩
      have hii : i = i0 := by
        rcases lt_trichotomy i i0 with hlt | he | hgt
        · have := hi4 i h1 hlt
          rw [binDiverges] at this
          simp only [decide_eq_false_iff_not, not_lt] at this
          exact absurd h3 (not_lt_of_le this)
        · exact he
        · exact absurd hi3 (not_lt_of_le (h4 i0 hi1 hgt))
      subst hii
      refine ⟨h7, ?_⟩
      simp only [Bool.and_eq_true, decide_eq_true_eq]
      exact ⟨h5, h6⟩

/-- Current-pass PMF table used in the C3 concrete instance. -/
def c3pmf : List (ℚ × ℚ) :=
  [(0, 0), (1, 10), (2, 10)]

/-- Previous-pass PMF values used in the C3 concrete instance. -/
def c3pmf0 : List ℚ :=
  [0, 0, 0]

/-- Window centered between the coordinates of bins 0 and 1. -/
def c3w : UWindow :=
  { xi := 1/2, kforce := 0, trajectories := 1, evolutionSteps := 1, av := 0, av2 := 0, count := 0 }

/-- Helper: the signed maximum of the concrete PMF value row. -/
theorem c3_maxQ : maxQ (c3pmf.map Prod.snd) = 10 := by
  simp only [c3pmf, List.map_cons, List.map_nil, maxQ, List.foldl_cons, List.foldl_nil]
  rw [max_eq_right (by norm_num : (0 : ℚ) ≤ 10), max_self]

/-- Helper: bin 1 of the concrete instance diverges at tolerance `1/2`. -/
theorem c3_bin1 : binDiverges c3pmf c3pmf0 (1/2) 1 = true := by
  rw [binDiverges, c3_maxQ]
  rw [show (c3pmf.getD 1 (0, 0)).2 = 10 from rfl, show c3pmf0.getD 1 0 = 0 from rfl]
  rw [decide_eq_true_eq, show (10 : ℚ) - 0 = 10 from by norm_num,
    abs_of_nonneg (by norm_num : (0 : ℚ) ≤ 10)]
  norm_num

/-- C3 counterexample: with current PMF `[(0,0), (1,10), (2,10)]`, previous
PMF values `[0,0,0]` and tolerance `1/2`, the first divergent bin is `i = 1`
(coordinate 1); the code marks the window centered at `1/2` because it
compares against the coordinate of bin `i - 1 = 0`, whereas the claim's set
— windows whose center lies at or beyond bin `i`'s coordinate `1` — is
empty.  The marked set and the claim's set differ, falsifying the claim. -/
theorem c3_counterexample :
    markWindows c3pmf c3pmf0 [c3w] (1/2) = [c3w] ∧
      ([c3w].filter (fun w => decide ((c3pmf.getD 1 (0, 0)).1 ≤ w.xi) &&
        decide (w.count < ((w.trajectories * w.evolutionSteps : ℕ) : ℤ)))) = [] ∧
      ¬(markWindows c3pmf c3pmf0 [c3w] (1/2) =
        [c3w].filter (fun w => decide ((c3pmf.getD 1 (0, 0)).1 ≤ w.xi) &&
          decide (w.count < ((w.trajectories * w.evolutionSteps : ℕ) : ℤ)))) := by
  have hfind : (List.range' 1 (c3pmf.length - 1)).find? (binDiverges c3pmf c3pmf0 (1/2)) =
      some 1 := by
    rw [show c3pmf.length - 1 = 2 from rfl, show List.range' 1 2 = [1, 2] from rfl,
      List.find?_cons_of_pos _ c3_bin1]
  have hmark : markWindows c3pmf c3pmf0 [c3w] (1/2) = [c3w] := by
    rw [markWindows, hfind]
    have hpred : windowNeedsMore c3pmf 1 c3w = true := by
      rw [windowNeedsMore,
        decide_eq_true (show (c3pmf.getD 0 (0, 0)).1 ≤ c3w.xi by
          rw [show (c3pmf.getD 0 (0, 0)).1 = 0 from rfl, show c3w.xi = 1/2 from rfl]
          norm_num),
        decide_eq_true (show c3w.count < ((c3w.trajectories * c3w.evolutionSteps : ℕ) : ℤ) by
          rw [show c3w.count = 0 from rfl]
          norm_num [c3w])]
      rfl
    simp only [List.filter_cons, List.filter_nil, hpred]
    rfl
  have hclaim : ([c3w].filter (fun w => decide ((c3pmf.getD 1 (0, 0)).1 ≤ w.xi) &&
      decide (w.count < ((w.trajectories * w.evolutionSteps : ℕ) : ℤ)))) = [] := by
    have hpred : (decide ((c3pmf.getD 1 (0, 0)).1 ≤ c3w.xi) &&
        decide (c3w.count < ((c3w.trajectories * c3w.evolutionSteps : ℕ) : ℤ))) = false := by
      rw [decide_eq_false (show ¬((c3pmf.getD 1 (0, 0)).1 ≤ c3w.xi) by
        rw [show (c3pmf.getD 1 (0, 0)).1 = 1 from rfl, show c3w.xi = 1/2 from rfl]
        norm_num)]
      rfl
    simp only [List.filter_cons, List.filter_nil, hpred]
    rfl
  refine ⟨hmark, hclaim, ?_⟩
  rw [hmark, hclaim]
  simp

/-- C3 witness: the amended membership characterization applied at the
concrete instance, exhibiting the first divergent bin `i = 1` and showing
the window at `1/2` is marked. -/
theorem c3_marked_windows_witness :
    c3w ∈ markWindows c3pmf c3pmf0 [c3w] (1/2) :=
  (c3_marked_windows c3pmf c3pmf0 [c3w] (1/2) c3w (by simp [c3pmf])).mpr
    ⟨1, le_rfl, by simp [c3pmf], by
      rw [c3_maxQ, show (c3pmf.getD 1 (0, 0)).2 = 10 from rfl,
        show c3pmf0.getD 1 0 = 0 from rfl, show (10 : ℚ) - 0 = 10 from by norm_num,
        abs_of_nonneg (by norm_num : (0 : ℚ) ≤ 10)]
      norm_num,
      fun j hj1 hj2 => absurd (lt_of_le_of_lt hj1 hj2) (lt_irrefl 1), by
      rw [show (c3pmf.getD 0 (0, 0)).1 = 0 from rfl, show c3w.xi = 1/2 from rfl]
      norm_num, by
      rw [show c3w.count = 0 from rfl]
      norm_num [c3w], List.mem_singleton.mpr rfl⟩

/-- Stage-sequencing state of an `RPMD` job: the fields
`self.potentialOfMeanForce` and `self.recrossingFactor` are initialized to
`None` (`main.py` lines 165-166) and set by the corresponding stages. -/
structure RPMDStage where
  potentialOfMeanForce : Option (List (ℚ × ℚ))
  recrossingFactor : Option ℚ
  deriving DecidableEq, Repr

/-- Message of the precondition error raised by `computeRateCoefficient`
(`main.py` line 1367). -/
def rateErrMsg : String :=
  "You must run computePotentialOfMeanForce() and computeRecrossingFactor() before running computeRPMDRateCoefficient()."

/-- Message of the precondition error raised by `computeRecrossingFactor`
(`main.py` line 715). -/
def recrossErrMsg : String :=
  "You must run computePotentialOfMeanForce() or specify xi_current before running computeRecrossingFactor()."

/-- First index of the maximum value of a list (`numpy.argmax`, which
returns the first occurrence; `main.py` line 716).  `numpy.argmax` raises on
an empty array, modelled as index `0`. -/
def argmaxIdx (l : List ℚ) : ℕ :=
  (l.enum.foldl (fun best p => if best.2 < p.2 then p else best) (0, l.headD 0)).1

/-- Resolution of the dividing-surface coordinate at the top of
`computeRecrossingFactor` (`main.py` lines 713-717): an explicitly supplied
`xi_current` is used as is; otherwise the coordinate of the PMF maximum is
used, and if no PMF has been computed either, an `RPMDError` precondition
error is raised before any recrossing computation happens. -/
def resolveXiCurrent (xiArg : Option ℚ) (st : RPMDStage) : Except String ℚ :=
  match xiArg with
  | some xi => Except.ok xi
  | none =>
    match st.potentialOfMeanForce with
    | none => Except.error recrossErrMsg
    | some pmf => Except.ok ((pmf.getD (argmaxIdx (pmf.map Prod.snd)) (0, 0)).1)

/-- Embedding of `computeRateCoefficient` (`main.py` lines 1361-1411): the
precondition check on both prerequisite stages comes first (line 1366) and
raises an `RPMDError` naming the prerequisite stages before any rate
computation; otherwise the canonical rate at the outer surface, the static
factor from the interpolated PMF (`scipy` interpolation passed in as the
opaque collaborator `interp`) and the recrossing factor are multiplied. -/
def computeRateCoefficient (sqrtF expF : ℚ → ℚ) (interp : List (ℚ × ℚ) → ℚ → ℚ)
    (piC beta Rinf mA mB xi_current : ℚ) (st : RPMDStage) : Except String ℚ :=
  match st.potentialOfMeanForce, st.recrossingFactor with
  | some pmf, some kappa =>
    let mu := mA * mB / (mA + mB)
    let k_QTST_s0 := 4 * piC * Rinf * Rinf / sqrtF (2 * piC * beta * mu)
    let W1 := interp pmf xi_current
    let W0 := (pmf.getD 0 (0, 0)).2
    let staticFactor := expF (-beta * (W1 - W0))
    Except.ok (k_QTST_s0 * staticFactor * kappa)
  | _, _ => Except.error rateErrMsg

/-- C7: `computeRateCoefficient` raises a precondition error naming the
missing prerequisite stages whenever either the potential of mean force or
the recrossing factor has not been computed, and `computeRecrossingFactor`
raises a precondition error when called without an explicit `xi_current`
before a potential of mean force has been computed; in both cases the error
is produced instead of any rate or recrossing result. -/
theorem c7_precondition_errors :
    (∀ (sqrtF expF : ℚ → ℚ) (interp : List (ℚ × ℚ) → ℚ → ℚ)
        (piC beta Rinf mA mB xi : ℚ) (st : RPMDStage),
      (st.potentialOfMeanForce = none ∨ st.recrossingFactor = none) →
        computeRateCoefficient sqrtF expF interp piC beta Rinf mA mB xi st =
          Except.error rateErrMsg) ∧
    (∀ st : RPMDStage, st.potentialOfMeanForce = none →
        resolveXiCurrent none st = Except.error recrossErrMsg) := by
  constructor
  · intro sqrtF expF interp piC beta Rinf mA mB xi st h
    rcases st with ⟨pmf?, rf?⟩
    rcases h with h | h
    · simp only at h
      subst h
      cases rf? <;> rfl
    · simp only at h
      subst h
      cases pmf? <;> rfl
  · intro st h
    rcases st with ⟨pmf?, rf?⟩
    simp only at h
    subst h
    rfl

/-- C7 witness: the precondition theorem applied to a concrete job state
that has produced neither a PMF nor a recrossing factor, and a concrete
state without a PMF for the recrossing stage. -/
theorem c7_precondition_errors_witness :
    computeRateCoefficient (fun x => x) (fun x => x) (fun _ _ => 0) 3 1 1 1 1 1
        { potentialOfMeanForce := none, recrossingFactor := none } =
      Except.error rateErrMsg ∧
      resolveXiCurrent none { potentialOfMeanForce := none, recrossingFactor := some 1 } =
        Except.error recrossErrMsg :=
  ⟨c7_precondition_errors.1 (fun x => x) (fun x => x) (fun _ _ => 0) 3 1 1 1 1 1
      { potentialOfMeanForce := none, recrossingFactor := none } (Or.inl rfl),
   c7_precondition_errors.2 { potentialOfMeanForce := none, recrossingFactor := some 1 } rfl⟩

/-- Python `str.strip()` on the character list of a string. -/
def pyStripList (s : List Char) : List Char :=
  ((s.dropWhile Char.isWhitespace).reverse.dropWhile Char.isWhitespace).reverse

/-- Python `str.strip()`. -/
def pyStrip (s : String) : String :=
  ⟨pyStripList s.data⟩

/-- Splitting a character list at every occurrence of a separator character,
keeping empty pieces — the semantics of Python `str.split(sep)`. -/
def splitListOn (c : Char) : List Char → List (List Char)
  | [] => [[]]
  | x :: t =>
    if x = c then [] :: splitListOn c t
    else
      match splitListOn c t with
      | [] => [[x]]
      | h :: r => (x :: h) :: r

/-- Python `str.split(sep)` for a single-character separator. -/
def pySplitOn (c : Char) (s : String) : List String :=
  (splitListOn c s.data).map (fun l => ⟨l⟩)

/-- Accumulating tokenizer behind Python's whitespace `str.split()`. -/
def wsTokensAux : List Char → List Char → List (List Char)
  | [], acc => if acc = [] then [] else [acc.reverse]
  | x :: t, acc =>
    if x.isWhitespace then
      if acc = [] then wsTokensAux t [] else acc.reverse :: wsTokensAux t []
    else wsTokensAux t (x :: acc)

/-- Python `str.split()` with no separator: split on whitespace runs and
drop empty tokens. -/
def pySplitWS (s : String) : List String :=
  (wsTokensAux s.data []).map (fun l => ⟨l⟩)

/-- Python `len(line)` (character count). -/
def pyLen (s : String) : ℕ :=
  s.data.length

/-- Python slice `line[0:n]`. -/
def pyTake (n : ℕ) (s : String) : String :=
  ⟨s.data.take n⟩

/-- Python slice `s[1:]`. -/
def pyDrop1 (s : String) : String :=
  ⟨s.data.drop 1⟩

/-- Python `f.readline()` over a file modelled as a list of (newline-free)
lines: at end of file it returns the empty string. -/
def readLn : List String → String × List String
  | [] => (⟨[]⟩, [])
  | l :: ls => (l, ls)

/-- Errors of a checkpoint load: `formatError` embeds the `RPMDError`
raised for an unrecognized header tag or parameter name (the
`CheckpointFormatError` of the specification), while `valueError` embeds
the other Python exceptions a malformed file can raise (`ValueError` from
`float()`/`int()`/tuple unpacking, `IndexError`, `AssertionError`,
`UnboundLocalError`). -/
inductive LoadError where
  | formatError : String → LoadError
  | valueError : String → LoadError
  deriving DecidableEq, Repr

/-- Expected title line of an umbrella sampling checkpoint
(`main.py` line 1035). -/
def usTitle : String :=
  "RPMD umbrella sampling"

/-- Suffix of the header-mismatch error message (`main.py` line 1036). -/
def usBadFile : String :=
  " is not a valid RPMD umbrella sampling output file."

/-- Prefix of the unrecognized-parameter error message
(`main.py` line 1061). -/
def usBadParam : String :=
  "Invalid umbrella sampling parameter "

/-- Parameter names recognized by `loadUmbrellaSampling`
(`main.py` lines 1046-1059). -/
def pTemperature : String :=
  "Temperature"

/-- Parameter name: number of beads. -/
def pNumBeads : String :=
  "Number of beads"

/-- Parameter name: time step. -/
def pTimeStep : String :=
  "Time step"

/-- Parameter name: reaction coordinate. -/
def pRxnCoord : String :=
  "Reaction coordinate"

/-- Parameter name: equilibration time. -/
def pEquilTime : String :=
  "Equilibration time"

/-- Parameter name: trajectory evolution time. -/
def pEvolTime : String :=
  "Trajectory evolution time"

/-- Parameter name: force constant. -/
def pForceConstant : String :=
  "Force constant"

/-- Table separator prefix tested by the row loop (`main.py` line 1070). -/
def rowSep : String :=
  "========"

/-- The empty string. -/
def emptyLine : String :=
  ⟨[]⟩

/-- The parameter separator of the `name = value` lines. -/
def eqChar : Char :=
  '='

/-- Python `float(data[0])`: fails with a `ValueError` when the token is
malformed and an `IndexError` when `data` is empty; the conversion itself is
the opaque collaborator `pf`. -/
def floatAt0 (pf : String → Option ℚ) (toks : List String) : Except LoadError ℚ :=
  match toks with
  | [] => Except.error (LoadError.valueError emptyLine)
  | t :: _ =>
    match pf t with
    | some v => Except.ok v
    | none => Except.error (LoadError.valueError t)

/-- Python `int(data[0])`. -/
def intAt0 (pint : String → Option ℤ) (toks : List String) : Except LoadError ℤ :=
  match toks with
  | [] => Except.error (LoadError.valueError emptyLine)
  | t :: _ =>
    match pint t with
    | some v => Except.ok v
    | none => Except.error (LoadError.valueError t)

/-- Python `int(data[2][1:])`, used to read the step count out of a
`... ps (N steps)` value (`main.py` lines 1055 and 1057). -/
def stepsAt2 (pint : String → Option ℤ) (toks : List String) : Except LoadError ℤ :=
  match toks[2]? with
  | none => Except.error (LoadError.valueError emptyLine)
  | some t =>
    match pint (pyDrop1 t) with
    | some v => Except.ok v
    | none => Except.error (LoadError.valueError (pyDrop1 t))

/-- Parameter-block loop of `loadUmbrellaSampling` (`main.py` lines
1041-1062): read lines until a blank one; each line must split on `=` into
exactly a name and a value (`ValueError` otherwise); recognized names have
their values converted (only the reaction coordinate is kept, threading
through `xi?`); an unrecognized name raises the `RPMDError`
`Invalid umbrella sampling parameter ...`. -/
def parseUSParams (pf : String → Option ℚ) (pint : String → Option ℤ) :
    List String → Option ℚ → Except LoadError (Option ℚ × List String)
  | [], xi? => Except.ok (xi?, [])
  | line :: rest, xi? =>
    if pyStrip line = emptyLine then Except.ok (xi?, rest)
    else
      match pySplitOn eqChar line with
      | [param, data] =>
        let p := pyStrip param
        let toks := pySplitWS data
        if p = pTemperature then do
          let _ ← floatAt0 pf toks
          parseUSParams pf pint rest xi?
        else if p = pNumBeads then do
          let _ ← intAt0 pint toks
          parseUSParams pf pint rest xi?
        else if p = pTimeStep then do
          let _ ← floatAt0 pf toks
          parseUSParams pf pint rest xi?
        else if p = pRxnCoord then do
          let v ← floatAt0 pf toks
          parseUSParams pf pint rest (some v)
        else if p = pEquilTime then do
          let _ ← stepsAt2 pint toks
          parseUSParams pf pint rest xi?
        else if p = pEvolTime then do
          let _ ← stepsAt2 pint toks
          parseUSParams pf pint rest xi?
        else if p = pForceConstant then do
          let _ ← floatAt0 pf toks
          parseUSParams pf pint rest xi?
        else Except.error (LoadError.formatError (usBadParam ++ p))
      | _ => Except.error (LoadError.valueError line)

/-- One data row of the umbrella sampling table (`main.py` lines
1070-1074): the line must split into exactly five whitespace tokens
`av av2 count xi_mean xi_var` (a `ValueError` otherwise); the first two are
converted with `float`, the third with `int`, the last two are unpacked but
never converted. -/
def parseUSRow (pf : String → Option ℚ) (pint : String → Option ℤ) (line : String) :
    Except LoadError (ℚ × ℚ × ℤ) :=
  match pySplitWS line with
  | [av, av2, cnt, _xiMean, _xiVar] => do
    let a ← floatAt0 pf [av]
    let a2 ← floatAt0 pf [av2]
    let c ← intAt0 pint [cnt]
    Except.ok (a, a2, c)
  | _ => Except.error (LoadError.valueError line)

/-- Data-row loop of `loadUmbrellaSampling` (`main.py` lines 1065-1075):
rows are read while the line is nonempty, longer than 8 characters and does
not start with the `========` separator.  Python strips every line after the
first; the caller passes the subsequent lines pre-stripped. -/
def parseUSRows (pf : String → Option ℚ) (pint : String → Option ℤ) :
    List String → Except LoadError (List (ℚ × ℚ × ℤ))
  | [] => Except.ok []
  | line :: rest =>
    if line = emptyLine ∨ ¬(8 < pyLen line) ∨ pyTake 8 line = rowSep then Except.ok []
    else do
      let row ← parseUSRow pf pint line
      let rows ← parseUSRows pf pint rest
      Except.ok (row :: rows)

/-- Embedding of `loadUmbrellaSampling` (`main.py` lines 1023-1083) over a
file modelled as a list of newline-free lines: skip one line, check the
title line (raising the `RPMDError` `... is not a valid RPMD umbrella
sampling output file.` on mismatch), skip two lines, parse the parameter
block, skip the three table-header lines, parse the data rows, and return
`(xi, av_list, av2_list, count_list)`.  If the parameter block never set
`xi`, the Python `return` raises an `UnboundLocalError`, modelled as a
`valueError`. -/
def loadUmbrellaSampling (pf : String → Option ℚ) (pint : String → Option ℤ)
    (lines : List String) : Except LoadError (ℚ × List ℚ × List ℚ × List ℤ) :=
  let r1 := (readLn lines).2
  let jt := (readLn r1).1
  let r2 := (readLn r1).2
  if pyStrip jt ≠ usTitle then
    Except.error (LoadError.formatError (jt ++ usBadFile))
  else
    let r3 := (readLn r2).2
    let r4 := (readLn r3).2
    do
      let pr ← parseUSParams pf pint r4 none
      let r5 := pr.2
      let r6 := (readLn r5).2
      let r7 := (readLn r6).2
      let r8 := (readLn r7).2
      let firstRow := (readLn r8).1
      let r9 := (readLn r8).2
      let rows ← parseUSRows pf pint (firstRow :: r9.map pyStrip)
      match pr.1 with
      | some xi =>
        Except.ok (xi, rows.map (fun r => r.1), rows.map (fun r => r.2.1),
          rows.map (fun r => r.2.2))
      | none => Except.error (LoadError.valueError pRxnCoord)

/-- Message standing in for the Python `AssertionError` raised by the
caller's check `assert abs(xi - window.xi) < 1e-6` (`main.py` line 502). -/
def assertMsg : String :=
  "assert abs(xi - window.xi) < 1e-6"

/-- Checkpoint-resumption step of `computePotentialOfMeanForce`
(`main.py` lines 498-507): load the umbrella sampling file; on any load
error the exception propagates and the in-memory `Window` is untouched;
otherwise, after the `assert` on the stored reaction coordinate, the last
row's running totals are added onto the window state (only when at least
one row exists). -/
def resumeWindow (pf : String → Option ℚ) (pint : String → Option ℤ)
    (w : UWindow) (lines : List String) : UWindow × Option LoadError :=
  match loadUmbrellaSampling pf pint lines with
  | Except.error e => (w, some e)
  | Except.ok (xi, avList, av2List, countList) =>
    if ¬(|xi - w.xi| < 1/1000000) then (w, some (LoadError.valueError assertMsg))
    else if 0 < avList.length then
      ({ w with av := w.av + avList.getLastD 0,
                av2 := w.av2 + av2List.getLastD 0,
                count := w.count + countList.getLastD 0 }, none)
    else (w, none)

/-- C6: loading an umbrella sampling checkpoint whose title line does not
match `RPMD umbrella sampling`, or whose parameter block contains an
unrecognized parameter name, produces an `RPMDError` format error (with the
offending header or parameter named in the message), and the failed load
leaves the in-memory `Window` state (`av`, `av2`, `count` and all other
fields) unchanged: the resumption step returns the original window next to
the error. -/
theorem c6_checkpoint_format_errors :
    (∀ (pf : String → Option ℚ) (pint : String → Option ℤ) (w : UWindow)
        (l0 jt : String) (rest : List String), pyStrip jt ≠ usTitle →
        resumeWindow pf pint w (l0 :: jt :: rest) =
          (w, some (LoadError.formatError (jt ++ usBadFile)))) ∧
    (∀ (pf : String → Option ℚ) (pint : String → Option ℤ) (w : UWindow)
        (l0 jt l2 l3 pline param data : String) (rest : List String),
        pyStrip jt = usTitle →
        pySplitOn eqChar pline = [param, data] →
        pyStrip pline ≠ emptyLine →
        pyStrip param ≠ pTemperature → pyStrip param ≠ pNumBeads →
        pyStrip param ≠ pTimeStep → pyStrip param ≠ pRxnCoord →
        pyStrip param ≠ pEquilTime → pyStrip param ≠ pEvolTime →
        pyStrip param ≠ pForceConstant →
        resumeWindow pf pint w (l0 :: jt :: l2 :: l3 :: pline :: rest) =
          (w, some (LoadError.formatError (usBadParam ++ pyStrip param)))) := by
  constructor
  · intro pf pint w l0 jt rest h
    rw [resumeWindow, loadUmbrellaSampling]
    simp only [readLn]
    rw [if_pos h]
  · intro pf pint w l0 jt l2 l3 pline param data rest hjt hsplit hblank h1 h2 h3 h4 h5 h6 h7
    rw [resumeWindow, loadUmbrellaSampling]
    simp only [readLn]
    rw [if_neg (by simp [hjt])]
    have hparams : parseUSParams pf pint (pline :: rest) none =
        Except.error (LoadError.formatError (usBadParam ++ pyStrip param)) := by
      rw [parseUSParams, if_neg hblank, hsplit]
      simp only [if_neg h1, if_neg h2, if_neg h3, if_neg h4, if_neg h5, if_neg h6, if_neg h7]
    rw [hparams]
    rfl

/-- Concrete decorative header line. -/
def starsLine : String :=
  "**********************"

/-- Concrete malformed title line from the specification scenario. -/
def badHeader : String :=
  "Not An RPMD File"

/-- Concrete parameter line with an unrecognized name. -/
def bogusParamLine : String :=
  "Bogus = 1"

/-- C6 witness: the format-error theorem applied to a concrete file whose
title line reads `Not An RPMD File`, and to a concrete file with a valid
header whose first parameter line has the unrecognized name `Bogus`; in
both cases the window comes back unchanged next to the format error. -/
theorem c6_checkpoint_format_errors_witness :
    resumeWindow (fun _ => some 0) (fun _ => some 0) (freshWindow 1 1 1 1)
        [starsLine, badHeader] =
      (freshWindow 1 1 1 1, some (LoadError.formatError (badHeader ++ usBadFile))) ∧
      resumeWindow (fun _ => some 0) (fun _ => some 0) (freshWindow 1 1 1 1)
          [starsLine, usTitle, starsLine, emptyLine, bogusParamLine] =
        (freshWindow 1 1 1 1,
          some (LoadError.formatError (usBadParam ++ pyStrip ⟨['B', 'o', 'g', 'u', 's', ' ']⟩))) :=
  ⟨c6_checkpoint_format_errors.1 (fun _ => some 0) (fun _ => some 0) (freshWindow 1 1 1 1)
      starsLine badHeader [] (by decide),
   c6_checkpoint_format_errors.2 (fun _ => some 0) (fun _ => some 0) (freshWindow 1 1 1 1)
      starsLine usTitle starsLine emptyLine bogusParamLine
      ⟨['B', 'o', 'g', 'u', 's', ' ']⟩ ⟨[' ', '1']⟩ [] (by decide) (by decide) (by decide)
      (by decide) (by decide) (by decide) (by decide) (by decide) (by decide) (by decide)⟩

end RPMDrate
